import Mathlib

/-!
Verification development for the Discord infrastructure enumerator.

The Python source is shallowly embedded: the rate-limited HTTP request
client (`modules/base.py`), the CDN fuzz-path generator
(`modules/cdn_fuzzer.py`) and the orchestrator (`discord_enum.py`) become
pure Lean functions over explicit network/behaviour oracles.  Wall-clock
times, the random identifier pool and the completion order of concurrent
tasks are passed in as parameters, so every run of the Python program
corresponds to one choice of those parameters.
-/

namespace DiscordEnum

/-! ## Request client: `BaseEnumerator._make_request` (modules/base.py, lines 57-89)

A parsed JSON body is modelled abstractly by its textual content.  A
response carries its status, its header list, the parsed numeric value of
its `Retry-After` header when that header is present, and the outcome of
`response.json()`: success, an `aiohttp.ContentTypeError` (a subclass of
`aiohttp.ClientError`, hence caught by the `except` clause) or a
`json.JSONDecodeError` (not a `ClientError`, hence propagated).  The
network is an oracle from attempt index to attempt outcome; an attempt is
either a response or an `aiohttp.ClientError` raised by the transport. -/

abbrev Json := String

inductive ParseOutcome where
  | ok (j : Json)
  | contentTypeError (msg : String)
  | decodeError (msg : String)
deriving DecidableEq, Repr

structure HttpResponse where
  status : Nat
  headers : List (String × String)
  retryAfter : Option Rat
  body : ParseOutcome
deriving DecidableEq, Repr

inductive Attempt where
  | resp (r : HttpResponse)
  | clientError (msg : String)
deriving DecidableEq, Repr

/-- `self.rate_limit_delay = 0.5` in `BaseEnumerator.__init__`. -/
def rate_limit_delay : Rat := 1/2

/-- Result of `_make_request`: either a returned value (`None` or parsed
JSON) or a propagated exception, together with the sleeps performed (in
order) and the number of attempts issued. -/
inductive MakeRequestResult where
  | ret (v : Option Json) (sleeps : List Rat) (attempts : Nat)
  | raise (msg : String) (sleeps : List Rat) (attempts : Nat)
deriving DecidableEq, Repr

def MakeRequestResult.attemptCount : MakeRequestResult → Nat
  | .ret _ _ a => a
  | .raise _ _ a => a

def MakeRequestResult.isRaise : MakeRequestResult → Bool
  | .ret _ _ _ => false
  | .raise _ _ _ => true

/-- The `while retries > 0` loop of `_make_request`.  `idx` is the index of
the next attempt, the second argument is the current value of `retries`,
`sleeps` accumulates performed sleeps in reverse. -/
def _make_request_go (net : Nat → Attempt) : Nat → Nat → List Rat → MakeRequestResult
  | idx, 0, sleeps => .ret none sleeps.reverse idx
  | idx, r + 1, sleeps =>
    match net idx with
    | .clientError _ =>
      -- `except aiohttp.ClientError`: retries -= 1; if retries > 0: sleep(1)
      if r > 0 then
        _make_request_go net (idx + 1) r ((1 : Rat) :: sleeps)
      else
        .ret none sleeps.reverse (idx + 1)
    | .resp resp =>
      if resp.status = 429 then
        -- sleep(Retry-After or rate_limit_delay); retries -= 1; continue
        _make_request_go net (idx + 1) r (resp.retryAfter.getD rate_limit_delay :: sleeps)
      else if resp.status = 200 then
        match resp.body with
        | .ok j => .ret (some j) sleeps.reverse (idx + 1)
        | .contentTypeError _ =>
          -- json() raised a ClientError: caught by the same except clause
          if r > 0 then
            _make_request_go net (idx + 1) r ((1 : Rat) :: sleeps)
          else
            .ret none sleeps.reverse (idx + 1)
        | .decodeError msg =>
          -- json() raised JSONDecodeError: not a ClientError, propagates
          .raise msg sleeps.reverse (idx + 1)
      else if resp.status = 404 then
        .ret none sleeps.reverse (idx + 1)
      else
        -- logged "Request failed with status", then `return None`
        .ret none sleeps.reverse (idx + 1)

/-- `BaseEnumerator._make_request`: `retries = 3` then the retry loop. -/
def _make_request (net : Nat → Attempt) : MakeRequestResult :=
  _make_request_go net 0 3 []

/-- The delay `_make_request` sleeps when attempt `a` is a 429 response:
the parsed `Retry-After` when present, else the default delay. -/
def retryDelay : Attempt → Rat
  | .resp r => r.retryAfter.getD rate_limit_delay
  | .clientError _ => 1

/-! ## Fuzz path generator: `CDNFuzzer._fuzz_cdn_paths` (modules/cdn_fuzzer.py, lines 89-143)

A pattern template string is transcribed as a list of tokens: literal
text, the `\x7bid\x7d` placeholder, the `\x7bext\x7d` placeholder and the
`\x7bendpoint\x7d` placeholder; `str.format` becomes `formatPattern`.  The
random identifier pool (drawn by `random.choices` once per run) and the
per-iteration `random.choice(self.CDN_ENDPOINTS)` stream are passed in as
parameters `ids` and `choice`. -/

inductive Tok where
  | tLit (s : String)
  | tId
  | tExt
  | tEndpoint
deriving DecidableEq, Repr

/-- `pattern.format(id=i, ext=e, endpoint=ep)`. -/
def formatPattern (p : List Tok) (i e ep : String) : String :=
  p.foldl
    (fun acc t =>
      acc ++ (match t with
        | .tLit s => s
        | .tId => i
        | .tExt => e
        | .tEndpoint => ep))
    ""

def CDN_DOMAINS : List String :=
  ["cdn.discordapp.com", "media.discordapp.net", "images.discordapp.net"]

def CDN_ENDPOINTS : List String :=
  ["attachments", "avatars", "icons", "banners", "splashes", "emojis", "stickers"]

def IMAGE_EXTENSIONS : List String := ["png", "jpg", "jpeg", "gif", "webp"]

/-- The seven template patterns of `_fuzz_cdn_paths`, transcribed token by
token. -/
def fuzzPatterns : List (List Tok) :=
  [[.tId],
   [.tId, .tLit ".", .tExt],
   [.tId, .tLit "/original"],
   [.tId, .tLit "?size=1024"],
   [.tId, .tLit "?width=100&height=100"],
   [.tEndpoint, .tLit "/", .tId],
   [.tLit "avatars/", .tId, .tLit "/", .tId]]

/-- The nested loop order of `_fuzz_cdn_paths`: for each domain, for each
pattern, for each identifier, for each extension. -/
def fuzzTuples (domains : List String) (patterns : List (List Tok))
    (ids exts : List String) : List (String × List Tok × String × String) :=
  domains.flatMap fun d => patterns.flatMap fun p => ids.flatMap fun i =>
    exts.map fun e => (d, p, i, e)

/-- One candidate URL: `'https://' + domain + '/' + pattern.format(...)`,
with the endpoint substitution drawn from the random stream at the current
iteration index. -/
def fuzzUrlsGo (choice : Nat → String) :
    Nat → List (String × List Tok × String × String) → List String
  | _, [] => []
  | k, (d, p, i, e) :: rest =>
    ("https://" ++ d ++ "/" ++ formatPattern p i e (choice k)) ::
      fuzzUrlsGo choice (k + 1) rest

/-- All candidate URLs generated by one `_fuzz_cdn_paths` run, in loop
order. -/
def fuzzUrls (domains : List String) (patterns : List (List Tok))
    (ids exts : List String) (choice : Nat → String) : List String :=
  fuzzUrlsGo choice 0 (fuzzTuples domains patterns ids exts)

/-- A possible random identifier pool of one run:
`[''.join(random.choices(string.hexdigits, k=16)) for _ in range(5)]`. -/
def cIds : List String :=
  ["0123456789abcdef", "123456789abcdef0", "23456789abcdef01",
   "3456789abcdef012", "456789abcdef0123"]

/-- The tuple sequence of that run over the source's literal domain,
pattern and extension lists. -/
def cTuples : List (String × List Tok × String × String) :=
  fuzzTuples CDN_DOMAINS fuzzPatterns cIds IMAGE_EXTENSIONS

/-- The candidate URLs of that run (endpoint stream constantly
`attachments`, one of the values `random.choice` can return). -/
def cRun : List String :=
  fuzzUrls CDN_DOMAINS fuzzPatterns cIds IMAGE_EXTENSIONS (fun _ => "attachments")

/-- The spec's scenario instance: 2 domains, the single pattern
`\x7bid\x7d.\x7bext\x7d`, 3 identifiers, 2 extensions. -/
def sUrls : List String :=
  fuzzUrls ["cdn.discordapp.com", "media.discordapp.net"]
    [[.tId, .tLit ".", .tExt]] ["aaa", "bbb", "ccc"] ["png", "jpg"]
    (fun _ => "attachments")

/-! ## Parallel request helper: `BaseEnumerator._parallel_requests`
(modules/base.py, lines 91-109)

One task per URL; `asyncio.gather(..., return_exceptions=True)` collects,
in input order, each task's returned value or raised exception, and the
final list comprehension drops every exception. -/

def _parallel_requests (nets : List (Nat → Attempt)) : List (Option Json) :=
  (nets.map fun net => _make_request net).filterMap fun r =>
    match r with
    | .ret v _ _ => some v
    | .raise _ _ _ => none

/-! ## Orchestrator: `DiscordEnumerator` (discord_enum.py)

A probing unit's run under `async with enumerator:` is abstracted by how
its three phases can go: `__aenter__` raising, `enumerate` raising,
`enumerate` returning a value but `__aexit__` raising afterwards, or
everything succeeding.  `α` is the type of the unit's returned result.
Concurrency is modelled by the order in which the `run_enumerator` tasks
complete and perform their dictionary insertions; per-unit elapsed times
are an oracle `times`. -/

inductive UnitBehavior (α : Type) where
  | ok (r : α)
  | enterFails (msg : String)
  | enumFails (msg : String)
  | exitFails (r : α) (msg : String)
deriving DecidableEq, Repr

/-- A value of `results[name]`: either the dictionary returned by
`enumerate` or the `\x7b'error': str(e)\x7d` dictionary installed by the
`except` clause. -/
inductive Entry (α : Type) where
  | result (r : α)
  | error (msg : String)
deriving DecidableEq, Repr

/-- The registered units, in the insertion order of the `enumerators`
dictionaries of `enumerate_all` and `enumerate_module`. -/
def registry : List String := ["asn", "dns", "services", "cdn", "servers"]

/-- The effect of one `run_enumerator(name, enumerator)` task on the
shared dictionaries: the final `results[name]` entry, and whether
`metadata['execution_time'][name]` was assigned.  When `enumerate`
returns, both `results[name]` and the execution time are assigned inside
the `try`; a later exception from `__aexit__` is caught and overwrites
`results[name]` with the error entry, but the execution-time entry it
already made stays. -/
def run_enumerator {α : Type} (b : UnitBehavior α) : Entry α × Bool :=
  match b with
  | .ok r => (.result r, true)
  | .exitFails _ m => (.error m, true)
  | .enumFails m => (.error m, false)
  | .enterFails m => (.error m, false)

/-- The dictionary insertions of `enumerate_all` performed by the
`run_enumerator` tasks, processed in completion order: first component is
`results`, second is `metadata['execution_time']`. -/
def enumerate_all_fold {α : Type} (behav : String → UnitBehavior α)
    (times : String → Rat) :
    List String → List (String × Entry α) × List (String × Rat)
  | [] => ([], [])
  | n :: rest =>
    ((n, (run_enumerator (behav n)).1) ::
        (enumerate_all_fold behav times rest).1,
     if (run_enumerator (behav n)).2 then
       (n, times n) :: (enumerate_all_fold behav times rest).2
     else
       (enumerate_all_fold behav times rest).2)

/-- The aggregate report built by `enumerate_all`. -/
structure Report (α : Type) where
  timestamp : String
  mode : String
  authenticated : Bool
  execution_time : List (String × Rat)
  results : List (String × Entry α)
deriving DecidableEq, Repr

/-- `DiscordEnumerator.enumerate_all`: runs every registered unit
concurrently (`order` is the completion order of the tasks, some
permutation of `registry`) and merges entries and execution times. -/
def enumerate_all {α : Type} (timestamp mode : String) (authenticated : Bool)
    (behav : String → UnitBehavior α) (times : String → Rat)
    (order : List String) : Report α :=
  { timestamp := timestamp
    mode := mode
    authenticated := authenticated
    execution_time := (enumerate_all_fold behav times order).2
    results := (enumerate_all_fold behav times order).1 }

/-- The report built by `enumerate_module` for one module:
`results` holds the single unit's entry and `execution_time_set` records
whether the scalar `metadata['execution_time']` was overwritten from its
initial `0` (it is, exactly when `enumerate` returned). -/
structure ModuleReport (α : Type) where
  timestamp : String
  mode : String
  authenticated : Bool
  module : String
  execution_time_set : Bool
  results : Entry α
deriving DecidableEq, Repr

/-- `DiscordEnumerator.enumerate_module`: `raise ValueError(f"Invalid
module: ...")` when the name is not a key of the `enumerators` registry —
this happens before any enumerator is instantiated or entered — otherwise
the one unit runs exactly as a `run_enumerator` task does. -/
def enumerate_module {α : Type} (timestamp mode : String)
    (authenticated : Bool) (module : String)
    (behav : String → UnitBehavior α) : Except String (ModuleReport α) :=
  if module ∈ registry then
    .ok
      { timestamp := timestamp
        mode := mode
        authenticated := authenticated
        module := module
        execution_time_set := (run_enumerator (behav module)).2
        results := (run_enumerator (behav module)).1 }
  else
    .error ("Invalid module: " ++ module)

/-- Outcome of one `main()` process run (discord_enum.py, lines 188-213):
the exit code, the report passed to `save_results` (`none` when nothing
was saved), and the `results` mapping held in memory when the process
ended.  `stop = some k` models a `KeyboardInterrupt` arriving after `k`
units had completed: the `except KeyboardInterrupt` handler prints and
exits with code 1 without calling `save_results`, so the merged entries
are dropped with the process; `stop = none` is an uninterrupted `--module
all` run, which saves the full report and exits 0. -/
def mainRun {α : Type} (timestamp mode : String) (authenticated : Bool)
    (behav : String → UnitBehavior α) (times : String → Rat)
    (order : List String) (stop : Option Nat) :
    Nat × Option (Report α) × List (String × Entry α) :=
  match stop with
  | none =>
    (0, some (enumerate_all timestamp mode authenticated behav times order),
     (enumerate_all_fold behav times order).1)
  | some k =>
    (1, none, (enumerate_all_fold behav times (order.take k)).1)

/-! ## CDN probing unit: `CDNFuzzer` (modules/cdn_fuzzer.py)

For the determinism claim the whole unit result is modelled as a function
of the random identifier pool `ids`, the random endpoint stream `choice`
and a stable response oracle `net` from URL to response (per-URL
exceptions, which the code logs and skips, do not occur under a stable
network). -/

structure CdnResponse where
  status : Nat
  headers : List (String × String)
  size : Nat
deriving DecidableEq, Repr

/-- An element of `results['interesting']` in `_fuzz_cdn_paths`. -/
structure FuzzFinding where
  url : String
  status : Nat
  headers : List (String × String)
deriving DecidableEq, Repr

/-- An element of `results['vulnerable']` in `_fuzz_cdn_paths`; its `type`
field is always the literal `information_disclosure`. -/
structure VulnFinding where
  url : String
  type : String
  headers : List (String × String)
deriving DecidableEq, Repr

structure FuzzResults where
  vulnerable : List VulnFinding
  interesting : List FuzzFinding
deriving DecidableEq, Repr

def cacheHeaderNames : List String := ["x-cache", "x-cache-hits", "x-served-by"]

/-- The response classification of `_fuzz_cdn_paths`: a status outside
404/403 is appended to `interesting`; a response carrying any
cache-disclosure header name (case-insensitively) is appended to
`vulnerable`. -/
def _fuzz_cdn_paths (ids : List String) (choice : Nat → String)
    (net : String → CdnResponse) : FuzzResults :=
  { vulnerable :=
      (fuzzUrls CDN_DOMAINS fuzzPatterns ids IMAGE_EXTENSIONS choice).filterMap
        fun u =>
          if (net u).headers.any
              (fun hd => cacheHeaderNames.contains hd.1.toLower) then
            some ⟨u, "information_disclosure", (net u).headers⟩
          else
            none
    interesting :=
      (fuzzUrls CDN_DOMAINS fuzzPatterns ids IMAGE_EXTENSIONS choice).filterMap
        fun u =>
          if (net u).status ≠ 404 ∧ (net u).status ≠ 403 then
            some ⟨u, (net u).status, (net u).headers⟩
          else
            none }

/-- An element of an `endpoint_results[endpoint]` list in
`_test_cdn_endpoints`. -/
structure PathProbe where
  path : String
  status : Nat
  headers : List (String × String)
  size : Nat
deriving DecidableEq, Repr

/-- The four `test_paths` of `_test_cdn_endpoints`. -/
def endpointTestPaths (domain ep : String) : List String :=
  ["https://" ++ domain ++ "/" ++ ep ++ "/123456789",
   "https://" ++ domain ++ "/" ++ ep ++ "/../../etc/passwd",
   "https://" ++ domain ++ "/" ++ ep ++ "/%00test",
   "https://" ++ domain ++ "/" ++ ep ++ "/" ++ String.mk (List.replicate 1000 'A')]

/-- One `endpoint_results` dictionary entry of `_test_cdn_endpoints`. -/
structure EndpointResult where
  endpoint : String
  probes : List PathProbe
deriving DecidableEq, Repr

def _test_cdn_endpoints (net : String → CdnResponse) (domain : String) :
    List EndpointResult :=
  CDN_ENDPOINTS.map fun ep =>
    ⟨ep, (endpointTestPaths domain ep).map fun p =>
      ⟨p, (net p).status, (net p).headers, (net p).size⟩⟩

/-- One `results['cdn_endpoints']` dictionary entry of
`CDNFuzzer.enumerate`. -/
structure DomainEndpoints where
  domain : String
  endpoints : List EndpointResult
deriving DecidableEq, Repr

def test_sizes : List String :=
  ["16", "32", "64", "128", "256", "512", "1024", "2048", "4096"]

def test_formats : List String := ["png", "jpg", "webp", "gif"]

/-- One `metadata_results[domain]` dictionary entry of
`_test_metadata_extraction`: the key `f'(size)_(fmt)'` with the probed
status and headers. -/
structure MetaProbe where
  key : String
  status : Nat
  headers : List (String × String)
deriving DecidableEq, Repr

/-- One `metadata_results` dictionary entry of
`_test_metadata_extraction`. -/
structure DomainMeta where
  domain : String
  probes : List MetaProbe
deriving DecidableEq, Repr

def _test_metadata_extraction (net : String → CdnResponse) :
    List DomainMeta :=
  CDN_DOMAINS.map fun d =>
    ⟨d, (test_sizes.flatMap fun s => test_formats.map fun f => (s, f)).map
      fun sf =>
        ⟨sf.1 ++ "_" ++ sf.2,
         (net ("https://" ++ d ++ "/avatars/123456789/test." ++ sf.2 ++
           "?size=" ++ sf.1)).status,
         (net ("https://" ++ d ++ "/avatars/123456789/test." ++ sf.2 ++
           "?size=" ++ sf.1)).headers⟩⟩

/-- The dictionary returned by `CDNFuzzer.enumerate`. -/
structure CdnUnitResult where
  cdn_endpoints : List DomainEndpoints
  vulnerable_patterns : List VulnFinding
  interesting_findings : List FuzzFinding
  rate_limits : List (String × String)
  metadata : List DomainMeta
deriving DecidableEq, Repr

/-- `CDNFuzzer.enumerate`: endpoint tests per domain, then the fuzz run,
then metadata extraction; `rate_limits` is initialised empty and never
written. -/
def CDNFuzzer_enumerate (ids : List String) (choice : Nat → String)
    (net : String → CdnResponse) : CdnUnitResult :=
  { cdn_endpoints := CDN_DOMAINS.map fun d => ⟨d, _test_cdn_endpoints net d⟩
    vulnerable_patterns := (_fuzz_cdn_paths ids choice net).vulnerable
    interesting_findings := (_fuzz_cdn_paths ids choice net).interesting
    rate_limits := []
    metadata := _test_metadata_extraction net }

/-- Identifier pool drawn by one unseeded run. -/
def cIdsA : List String :=
  ["aaaa0123456789ab", "aaab0123456789ab", "aaac0123456789ab",
   "aaad0123456789ab", "aaae0123456789ab"]

/-- Identifier pool drawn by a second unseeded run. -/
def cIdsB : List String :=
  ["bbbb0123456789ab", "bbbc0123456789ab", "bbbd0123456789ab",
   "bbbe0123456789ab", "bbbf0123456789ab"]

/-- A stable network: every URL answers 200 with no headers. -/
def stableNet : String → CdnResponse := fun _ => ⟨200, [], 0⟩

/-- First interesting finding of a module run of the cdn unit, used to
compare two runs without evaluating the whole result. -/
def cdnFirstFinding : Except String (ModuleReport CdnUnitResult) →
    Option FuzzFinding
  | .ok rep =>
    match rep.results with
    | .result r => r.interesting_findings.get? 0
    | .error _ => none
  | .error _ => none

/-! ## Theorems -/

theorem _make_request_go_attempts_le (net : Nat → Attempt) :
    ∀ (r idx : Nat) (sleeps : List Rat),
      (_make_request_go net idx r sleeps).attemptCount ≤ idx + r := by
  intro r
  induction r with
  | zero =>
    intro idx sleeps
    simp [_make_request_go, MakeRequestResult.attemptCount]
  | succ r ih =>
    intro idx sleeps
    rw [_make_request_go]
    cases h : net idx with
    | clientError m =>
      by_cases hr : r > 0
      · simpa [hr] using
          le_trans (ih (idx + 1) ((1 : Rat) :: sleeps)) (by omega)
      · simp [hr, MakeRequestResult.attemptCount]
    | resp resp =>
      by_cases h429 : resp.status = 429
      · simpa [h429] using
          le_trans (ih (idx + 1) (resp.retryAfter.getD rate_limit_delay :: sleeps)) (by omega)
      · by_cases h200 : resp.status = 200
        · cases hb : resp.body with
          | ok j => simp [h429, h200, hb, MakeRequestResult.attemptCount]
          | contentTypeError m =>
            by_cases hr : r > 0
            · simpa [h429, h200, hb, hr] using
                le_trans (ih (idx + 1) ((1 : Rat) :: sleeps)) (by omega)
            · simp [h429, h200, hb, hr, MakeRequestResult.attemptCount]
          | decodeError m =>
            simp [h429, h200, hb, MakeRequestResult.attemptCount]
        · by_cases h404 : resp.status = 404
          · simp [h429, h200, h404, MakeRequestResult.attemptCount]
          · simp [h429, h200, h404, MakeRequestResult.attemptCount]

/-- C2: for every request issued through the request client, a 404 response
never triggers a retry; a 429 response is retried within the shared budget
of 3 attempts per target and the delay slept before each 429 retry is the
response's `Retry-After` value when present, else the default
`rate_limit_delay`; exhausting the budget returns the terminal outcome
`None` instead of propagating an exception.  The conjuncts state: (1) at
most 3 attempts are ever issued; (2) a first-attempt 404 returns
immediately, one attempt, no sleep; (3) a 429 followed by a 200 sleeps
exactly the 429's delay and succeeds on the second attempt; (4) three
consecutive 429s sleep each response's delay and end with the terminal
outcome `None` after exactly 3 attempts; (5) three consecutive transport
errors sleep the fixed delay 1 twice and end with `None` after 3
attempts. -/
theorem make_request_retry_policy (net : Nat → Attempt) :
    (_make_request net).attemptCount ≤ 3 ∧
    (∀ r : HttpResponse, net 0 = .resp r → r.status = 404 →
      _make_request net = .ret none [] 1) ∧
    (∀ r0 r1 : HttpResponse, ∀ j : Json,
      net 0 = .resp r0 → r0.status = 429 →
      net 1 = .resp r1 → r1.status = 200 → r1.body = .ok j →
      _make_request net = .ret (some j) [r0.retryAfter.getD rate_limit_delay] 2) ∧
    ((∀ i, i < 3 → ∃ r : HttpResponse, net i = .resp r ∧ r.status = 429) →
      _make_request net =
        .ret none [retryDelay (net 0), retryDelay (net 1), retryDelay (net 2)] 3) ∧
    ((∀ i, i < 3 → ∃ m : String, net i = .clientError m) →
      _make_request net = .ret none [1, 1] 3) := by
  refine ⟨?_, ?_, ?_, ?_, ?_⟩
  · exact le_trans (_make_request_go_attempts_le net 3 0 []) (by omega)
  · intro r h0 h404
    simp [_make_request, _make_request_go, h0, h404]
  · intro r0 r1 j h0 h429 h1 h200 hb
    rw [_make_request, _make_request_go]
    rw [h0]
    simp only [h429, if_pos rfl]
    rw [_make_request_go, h1]
    simp [h200, hb]
  · intro h
    obtain ⟨r0, h0, s0⟩ := h 0 (by omega)
    obtain ⟨r1, h1, s1⟩ := h 1 (by omega)
    obtain ⟨r2, h2, s2⟩ := h 2 (by omega)
    rw [_make_request, _make_request_go, h0]
    simp only [s0, if_pos rfl]
    rw [_make_request_go, h1]
    simp only [s1, if_pos rfl]
    rw [_make_request_go, h2]
    simp only [s2, if_pos rfl]
    simp [_make_request_go, retryDelay, h0, h1, h2]
  · intro h
    obtain ⟨m0, h0⟩ := h 0 (by omega)
    obtain ⟨m1, h1⟩ := h 1 (by omega)
    obtain ⟨m2, h2⟩ := h 2 (by omega)
    rw [_make_request, _make_request_go, h0]
    simp only [show (2 : Nat) > 0 by omega, if_pos rfl]
    rw [_make_request_go, h1]
    simp only [show (1 : Nat) > 0 by omega, if_pos rfl]
    rw [_make_request_go, h2]
    simp

/-- Witness for C2: a target answering 429 with `Retry-After: 2` on every
attempt is retried with delay 2 each time and exhausts the budget after 3
attempts with the terminal outcome `None`; a target answering 404 returns
`None` after one attempt with no sleep. -/
theorem make_request_retry_policy_witness :
    _make_request (fun _ => .resp ⟨429, [("Retry-After", "2")], some 2, .ok "x"⟩) =
      .ret none [2, 2, 2] 3 ∧
    _make_request (fun _ => .resp ⟨404, [], none, .ok "x"⟩) =
      .ret none [] 1 := by
  constructor
  · have h := (make_request_retry_policy
      (fun _ => .resp ⟨429, [("Retry-After", "2")], some 2, .ok "x"⟩)).2.2.2.1
      (fun i _ => ⟨_, rfl, rfl⟩)
    simpa [retryDelay] using h
  · exact (make_request_retry_policy
      (fun _ => .resp ⟨404, [], none, .ok "x"⟩)).2.1 _ rfl rfl

/-- C4 counterexample: the claim says a non-200/404/429 response yields a
terminal outcome that carries the response's status code and headers.  In
the code the branch only logs the status and returns `None`: two responses
with different statuses and different headers produce the very same
outcome `None` (also equal to the 404 outcome), so the outcome carries
neither the status nor the headers. -/
theorem make_request_other_status_counterexample :
    _make_request (fun _ => .resp ⟨500, [("Server", "cf")], none, .ok "a"⟩) =
      _make_request (fun _ => .resp ⟨503, [("Via", "edge")], none, .ok "b"⟩) ∧
    _make_request (fun _ => .resp ⟨500, [("Server", "cf")], none, .ok "a"⟩) =
      .ret none [] 1 := by
  constructor
  · rfl
  · rfl

/-- C4 amended: for every response whose status is neither 200 nor 429
(404 included), the request client returns, without retrying and after
exactly one attempt, the terminal outcome `None`; the outcome does not
carry the response's status or headers (the status is only logged). -/
theorem make_request_other_status (net : Nat → Attempt) (r : HttpResponse)
    (h0 : net 0 = .resp r) (h200 : r.status ≠ 200) (h429 : r.status ≠ 429) :
    _make_request net = .ret none [] 1 := by
  rw [_make_request, _make_request_go, h0]
  simp only [h429, if_neg, h200, if_false]
  split <;> rfl

/-- Witness for the amended C4 at a concrete 403 response. -/
theorem make_request_other_status_witness :
    _make_request (fun _ => .resp ⟨403, [("h", "v")], none, .ok "x"⟩) =
      .ret none [] 1 :=
  make_request_other_status _ ⟨403, [("h", "v")], none, .ok "x"⟩ rfl
    (by decide) (by decide)

/-- C5 counterexample: the claim says a 200 response whose body fails to
parse still yields a success outcome with a raw-body marker, with no retry
and no exception.  In the code `response.json()` raising
`ContentTypeError` is caught by the `except aiohttp.ClientError` clause
and the request is retried (here: 3 attempts, two fixed sleeps of 1,
terminal `None`), while `json.JSONDecodeError` propagates to the caller as
an exception; in neither case is a success outcome with a raw-body marker
returned. -/
theorem make_request_parse_failure_counterexample :
    _make_request (fun _ => .resp ⟨200, [], none, .contentTypeError "mime"⟩) =
      .ret none [1, 1] 3 ∧
    _make_request (fun _ => .resp ⟨200, [], none, .decodeError "bad json"⟩) =
      .raise "bad json" [] 1 := by
  constructor
  · rfl
  · rfl

/-- C5 amended: a 200 response with a successfully parsed body yields the
success outcome with that parsed body after one attempt; a 200 response
whose body raises `JSONDecodeError` propagates that exception to the
caller; a 200 response whose body raises `ContentTypeError` is treated
like a transport failure: the client sleeps the fixed delay 1 and retries
under the shared budget (no raw-body marker exists in the request
client). -/
theorem make_request_200_behaviour (net : Nat → Attempt) (r : HttpResponse)
    (h0 : net 0 = .resp r) (h200 : r.status = 200) :
    (∀ j, r.body = .ok j → _make_request net = .ret (some j) [] 1) ∧
    (∀ m, r.body = .decodeError m → _make_request net = .raise m [] 1) ∧
    (∀ m, r.body = .contentTypeError m →
      _make_request net = _make_request_go net 1 2 [1]) := by
  refine ⟨?_, ?_, ?_⟩
  · intro j hb
    simp [_make_request, _make_request_go, h0, h200, hb]
  · intro m hb
    simp [_make_request, _make_request_go, h0, h200, hb]
  · intro m hb
    simp [_make_request, _make_request_go, h0, h200, hb]

/-- Witness for the amended C5 at a concrete 200 response with body
parsing succeeding. -/
theorem make_request_200_behaviour_witness :
    _make_request (fun _ => .resp ⟨200, [], none, .ok "data"⟩) =
      .ret (some "data") [] 1 :=
  (make_request_200_behaviour _ ⟨200, [], none, .ok "data"⟩ rfl rfl).1 "data" rfl

theorem fuzzUrlsGo_length (choice : Nat → String)
    (l : List (String × List Tok × String × String)) :
    ∀ k, (fuzzUrlsGo choice k l).length = l.length := by
  induction l with
  | nil => intro k; rfl
  | cons a rest ih =>
    intro k
    obtain ⟨d, p, i, e⟩ := a
    simp [fuzzUrlsGo, ih]

theorem length_flatMap_const {α β : Type} (l : List α) (f : α → List β) (c : Nat)
    (h : ∀ a ∈ l, (f a).length = c) : (l.flatMap f).length = l.length * c := by
  induction l with
  | nil => simp
  | cons a t ih =>
    simp only [List.flatMap_cons, List.length_append, List.length_cons]
    rw [h a (by simp), ih (fun b hb => h b (by simp [hb]))]
    ring

theorem fuzzTuples_length (domains : List String) (patterns : List (List Tok))
    (ids exts : List String) :
    (fuzzTuples domains patterns ids exts).length =
      domains.length * patterns.length * ids.length * exts.length := by
  have h1 : ∀ (d : String) (p : List Tok),
      (ids.flatMap fun i => exts.map fun e => (d, p, i, e)).length =
        ids.length * exts.length :=
    fun d p => length_flatMap_const ids _ exts.length (fun i _ => by simp)
  have h2 : ∀ d : String,
      (patterns.flatMap fun p => ids.flatMap fun i =>
          exts.map fun e => (d, p, i, e)).length =
        patterns.length * (ids.length * exts.length) :=
    fun d => length_flatMap_const patterns _ _ (fun p _ => h1 d p)
  rw [fuzzTuples,
    length_flatMap_const _ _ (patterns.length * (ids.length * exts.length))
      (fun d _ => h2 d)]
  ring

/-- C3 counterexample: the claim says distinct input tuples (domain,
pattern, identifier, extension) never produce duplicate candidate URLs.
The source's first pattern `\x7bid\x7d` ignores the extension, so in an
actual run (the source's domain, pattern and extension lists, a concrete
identifier pool) the first two tuples differ only in extension (`png`
versus `jpg`) yet produce the identical URL. -/
theorem fuzz_duplicate_counterexample :
    cTuples.get? 0 ≠ cTuples.get? 1 ∧
    cRun.get? 0 = some "https://cdn.discordapp.com/0123456789abcdef" ∧
    cRun.get? 1 = some "https://cdn.discordapp.com/0123456789abcdef" := by
  refine ⟨by decide, ?_, ?_⟩
  · rfl
  · rfl

/-- C3 amended: the number of generated candidate URLs always equals
|domains| × |patterns| × |identifiers| × |extensions| exactly; freedom
from duplicates holds not for every pattern (patterns that omit a
placeholder repeat URLs) but it does hold for the spec's scenario — 2
domains, single pattern `\x7bid\x7d.\x7bext\x7d`, 3 identifiers, 2
extensions — which yields exactly 12 pairwise distinct candidate URLs. -/
theorem fuzz_candidate_count :
    (∀ (domains : List String) (patterns : List (List Tok))
       (ids exts : List String) (choice : Nat → String),
      (fuzzUrls domains patterns ids exts choice).length =
        domains.length * patterns.length * ids.length * exts.length) ∧
    sUrls.length = 12 ∧ sUrls.Nodup := by
  refine ⟨?_, by decide, by decide⟩
  intro domains patterns ids exts choice
  rw [fuzzUrls, fuzzUrlsGo_length, fuzzTuples_length]

theorem enumerate_all_fold_lookup_none {α : Type}
    (behav : String → UnitBehavior α) (times : String → Rat) :
    ∀ (order : List String) (n : String), n ∉ order →
      (enumerate_all_fold behav times order).1.lookup n = none ∧
      (enumerate_all_fold behav times order).2.lookup n = none := by
  intro order
  induction order with
  | nil => intro n _; exact ⟨rfl, rfl⟩
  | cons m rest ih =>
    intro n hn
    have hnm : n ≠ m := fun he => hn (he ▸ List.mem_cons_self m rest)
    have hnr : n ∉ rest := fun he => hn (List.mem_cons_of_mem m he)
    have hbeq : (n == m) = false := beq_eq_false_iff_ne.mpr hnm
    constructor
    · simp [enumerate_all_fold, List.lookup, hbeq, (ih n hnr).1]
    · by_cases hrec : (run_enumerator (behav m)).2
      · simp [enumerate_all_fold, hrec, List.lookup, hbeq, (ih n hnr).2]
      · simp [enumerate_all_fold, hrec, (ih n hnr).2]

theorem enumerate_all_fold_lookup {α : Type}
    (behav : String → UnitBehavior α) (times : String → Rat) :
    ∀ order : List String, order.Nodup → ∀ n ∈ order,
      (enumerate_all_fold behav times order).1.lookup n =
        some (run_enumerator (behav n)).1 ∧
      (enumerate_all_fold behav times order).2.lookup n =
        (if (run_enumerator (behav n)).2 then some (times n) else none) := by
  intro order
  induction order with
  | nil => intro _ n hn; cases hn
  | cons m rest ih =>
    intro hnd n hn
    have hmr : m ∉ rest := (List.nodup_cons.mp hnd).1
    have hrest : rest.Nodup := (List.nodup_cons.mp hnd).2
    rcases List.mem_cons.mp hn with he | he
    · subst he
      constructor
      · simp [enumerate_all_fold, List.lookup]
      · by_cases hrec : (run_enumerator (behav n)).2
        · simp [enumerate_all_fold, hrec, List.lookup]
        · simp [enumerate_all_fold, hrec,
            (enumerate_all_fold_lookup_none behav times rest n hmr).2]
    · have hnm : n ≠ m := fun heq => hmr (heq ▸ he)
      have hbeq : (n == m) = false := beq_eq_false_iff_ne.mpr hnm
      constructor
      · simp [enumerate_all_fold, List.lookup, hbeq, (ih hrest n he).1]
      · by_cases hrec : (run_enumerator (behav m)).2
        · simp [enumerate_all_fold, hrec, List.lookup, hbeq,
            (ih hrest n he).2]
        · simp [enumerate_all_fold, hrec, (ih hrest n he).2]

theorem enumerate_all_fold_keys {α : Type}
    (behav : String → UnitBehavior α) (times : String → Rat) :
    ∀ order : List String,
      (enumerate_all_fold behav times order).1.map Prod.fst = order := by
  intro order
  induction order with
  | nil => rfl
  | cons m rest ih => simp [enumerate_all_fold, ih]

theorem registry_nodup : registry.Nodup := by decide

/-- C1: for every completion order of the five registered units and every
behaviour of their runs (success, raising in `__aenter__`, raising in
`enumerate`, or returning and then raising in `__aexit__`),
`enumerate_all`'s report contains exactly one `results` entry per
registered unit: the key list is exactly the completion order (a
permutation of the registry), every registered unit's entry is the one
determined by that unit's own behaviour alone — so no unit's failure can
remove or corrupt another unit's entry — and a unit whose run raises gets
the error dictionary holding the exception's message. -/
theorem enumerate_all_one_entry_per_unit {α : Type} (ts md : String)
    (au : Bool) (behav : String → UnitBehavior α) (times : String → Rat)
    (order : List String) (h : order.Perm registry) :
    ((enumerate_all ts md au behav times order).results.map Prod.fst =
      order) ∧
    (enumerate_all ts md au behav times order).results.length =
      registry.length ∧
    (∀ n, n ∈ registry →
      (enumerate_all ts md au behav times order).results.lookup n =
        some (run_enumerator (behav n)).1) ∧
    (∀ n msg, (behav n = .enterFails msg ∨ behav n = .enumFails msg ∨
        ∃ r, behav n = .exitFails r msg) →
      (run_enumerator (behav n)).1 = .error msg) := by
  have hnd : order.Nodup := h.nodup_iff.mpr registry_nodup
  refine ⟨enumerate_all_fold_keys behav times order, ?_, ?_, ?_⟩
  · have hlen := congrArg List.length (enumerate_all_fold_keys behav times order)
    simp only [List.length_map] at hlen
    exact hlen.trans h.length_eq
  · intro n hn
    exact (enumerate_all_fold_lookup behav times order hnd n
      (h.mem_iff.mpr hn)).1
  · rintro n msg (hb | hb | ⟨r, hb⟩) <;> simp [run_enumerator, hb]

/-- Witness for C1: a concrete run, completion order `servers, cdn, dns,
asn, services`, in which the cdn unit's `enumerate` raises: the cdn entry
is the error dictionary and the report still has five entries. -/
theorem enumerate_all_one_entry_per_unit_witness :
    (enumerate_all (α := String) "t" "unauth" false
        (fun n => if n = "cdn" then .enumFails "boom" else .ok "findings")
        (fun _ => 1)
        ["servers", "cdn", "dns", "asn", "services"]).results.lookup "cdn" =
      some (.error "boom") ∧
    (enumerate_all (α := String) "t" "unauth" false
        (fun n => if n = "cdn" then .enumFails "boom" else .ok "findings")
        (fun _ => 1)
        ["servers", "cdn", "dns", "asn", "services"]).results.length = 5 := by
  constructor
  · exact ((enumerate_all_one_entry_per_unit "t" "unauth" false
      (fun n => if n = "cdn" then .enumFails "boom" else .ok "findings")
      (fun _ => 1) ["servers", "cdn", "dns", "asn", "services"]
      (by decide)).2.2.1 "cdn" (by decide)).trans (by decide)
  · exact (enumerate_all_one_entry_per_unit "t" "unauth" false
      (fun n => if n = "cdn" then .enumFails "boom" else .ok "findings")
      (fun _ => 1) ["servers", "cdn", "dns", "asn", "services"]
      (by decide)).2.1

/-- C10: in every `enumerate_all` report, `metadata['execution_time']` has
an entry exactly for the units whose `enumerate` returned without raising
(including a unit whose later `__aexit__` raised, since the time entry was
assigned before); a unit whose `enumerate` or `__aenter__` raises gets the
error `results` entry and no execution-time entry; the remaining metadata
fields (timestamp, mode, authenticated) are untouched by any unit's
failure. -/
theorem execution_time_entries {α : Type} (ts md : String) (au : Bool)
    (behav : String → UnitBehavior α) (times : String → Rat)
    (order : List String) (h : order.Perm registry) :
    (∀ n, n ∈ registry →
      ((enumerate_all ts md au behav times order).execution_time.lookup n =
          some (times n) ↔
        ((∃ r, behav n = .ok r) ∨ ∃ r msg, behav n = .exitFails r msg))) ∧
    (∀ n msg, n ∈ registry →
      (behav n = .enumFails msg ∨ behav n = .enterFails msg) →
      (enumerate_all ts md au behav times order).results.lookup n =
          some (.error msg) ∧
        (enumerate_all ts md au behav times order).execution_time.lookup n =
          none) ∧
    (enumerate_all ts md au behav times order).timestamp = ts ∧
    (enumerate_all ts md au behav times order).mode = md ∧
    (enumerate_all ts md au behav times order).authenticated = au := by
  have hnd : order.Nodup := h.nodup_iff.mpr registry_nodup
  refine ⟨?_, ?_, rfl, rfl, rfl⟩
  · intro n hn
    have hl : (enumerate_all ts md au behav times order).execution_time.lookup
        n = (if (run_enumerator (behav n)).2 then some (times n) else none) :=
      (enumerate_all_fold_lookup behav times order hnd n (h.mem_iff.mpr hn)).2
    rw [hl]
    constructor
    · intro he
      cases hb : behav n with
      | ok r => exact Or.inl ⟨r, rfl⟩
      | exitFails r m => exact Or.inr ⟨r, m, rfl⟩
      | enumFails m => rw [hb] at he; simp [run_enumerator] at he
      | enterFails m => rw [hb] at he; simp [run_enumerator] at he
    · rintro (⟨r, hb⟩ | ⟨r, m, hb⟩) <;> rw [hb] <;> simp [run_enumerator]
  · intro n msg hn hb
    have hl1 := (enumerate_all_fold_lookup behav times order hnd n
      (h.mem_iff.mpr hn)).1
    have hl2 := (enumerate_all_fold_lookup behav times order hnd n
      (h.mem_iff.mpr hn)).2
    rcases hb with hb | hb <;>
      exact ⟨by rw [show (enumerate_all ts md au behav times order).results =
          (enumerate_all_fold behav times order).1 from rfl, hl1, hb]; rfl,
        by rw [show (enumerate_all ts md au behav times
            order).execution_time =
          (enumerate_all_fold behav times order).2 from rfl, hl2, hb]; rfl⟩

/-- Witness for C10: with the cdn unit's `enumerate` raising and the
others succeeding, the execution-time mapping has no cdn entry but has a
dns entry. -/
theorem execution_time_entries_witness :
    (enumerate_all (α := String) "t" "unauth" false
        (fun n => if n = "cdn" then .enumFails "boom" else .ok "findings")
        (fun _ => 1) registry).execution_time.lookup "cdn" = none ∧
    (enumerate_all (α := String) "t" "unauth" false
        (fun n => if n = "cdn" then .enumFails "boom" else .ok "findings")
        (fun _ => 1) registry).execution_time.lookup "dns" = some 1 := by
  constructor
  · exact ((execution_time_entries "t" "unauth" false
      (fun n => if n = "cdn" then .enumFails "boom" else .ok "findings")
      (fun _ => 1) registry (List.Perm.refl _)).2.1 "cdn" "boom" (by decide)
      (Or.inl (by decide))).2
  · exact ((execution_time_entries "t" "unauth" false
      (fun n => if n = "cdn" then .enumFails "boom" else .ok "findings")
      (fun _ => 1) registry (List.Perm.refl _)).1 "dns" (by decide)).mpr
      (Or.inl ⟨"findings", by decide⟩)

/-- C7: `enumerate_module` on a name outside the fixed registry fails
synchronously with the invalid-module error, and does so without
consulting any unit behaviour — the outcome is identical for every
behaviour map, so no probing unit is instantiated or invoked; on a
registered name it produces exactly the entry that `enumerate_all`
records for that unit under the same behaviour, i.e. the single unit runs
as it does inside `runAll`. -/
theorem enumerate_module_registry {α : Type} (ts md : String) (au : Bool) :
    (∀ m, m ∉ registry → ∀ b1 b2 : String → UnitBehavior α,
      enumerate_module ts md au m b1 = .error ("Invalid module: " ++ m) ∧
      enumerate_module ts md au m b1 = enumerate_module ts md au m b2) ∧
    (∀ m, m ∈ registry → ∀ (behav : String → UnitBehavior α)
        (times : String → Rat) (order : List String), order.Perm registry →
      enumerate_module ts md au m behav =
        .ok { timestamp := ts, mode := md, authenticated := au, module := m,
              execution_time_set := (run_enumerator (behav m)).2,
              results := (run_enumerator (behav m)).1 } ∧
      (enumerate_all ts md au behav times order).results.lookup m =
        some (run_enumerator (behav m)).1) := by
  constructor
  · intro m hm b1 b2
    constructor <;> simp [enumerate_module, hm]
  · intro m hm behav times order h
    have hnd : order.Nodup := h.nodup_iff.mpr registry_nodup
    exact ⟨by simp [enumerate_module, hm],
      (enumerate_all_fold_lookup behav times order hnd m
        (h.mem_iff.mpr hm)).1⟩

/-- Witness for C7: `runOne("unknown")` yields the invalid-module error;
`runOne("dns")` yields the unit's entry with the execution time set. -/
theorem enumerate_module_registry_witness :
    enumerate_module (α := String) "t" "unauth" false "unknown"
        (fun _ => .ok "findings") = .error "Invalid module: unknown" ∧
    enumerate_module (α := String) "t" "unauth" false "dns"
        (fun _ => .ok "findings") =
      .ok { timestamp := "t", mode := "unauth", authenticated := false,
            module := "dns", execution_time_set := true,
            results := .result "findings" } := by
  constructor
  · exact ((enumerate_module_registry "t" "unauth" false).1 "unknown"
      (by decide) (fun _ => .ok "findings") (fun _ => .ok "findings")).1
  · exact ((enumerate_module_registry "t" "unauth" false).2 "dns"
      (by decide) (fun _ => .ok "findings") (fun _ => 1) registry
      (List.Perm.refl _)).1

/-- C6 counterexample: the claim says `_parallel_requests` returns exactly
one outcome per input target.  A single target whose 200 response body
raises `JSONDecodeError` makes its task raise; `asyncio.gather(...,
return_exceptions=True)` hands the exception to the comprehension, which
filters it out: one input target, zero outcomes. -/
theorem parallel_requests_drop_counterexample :
    _parallel_requests [fun _ => .resp ⟨200, [], none, .decodeError "bad"⟩] =
      [] ∧
    ([fun _ => .resp ⟨200, [], none, .decodeError "bad"⟩] :
      List (Nat → Attempt)).length = 1 := by
  exact ⟨rfl, rfl⟩

/-- C6 amended: `_parallel_requests` returns at most one outcome per input
target; it returns exactly one outcome per input target when no task's
request raises, and the outcome of any task that raises is silently
dropped from the returned list. -/
theorem parallel_requests_outcomes (nets : List (Nat → Attempt)) :
    (_parallel_requests nets).length ≤ nets.length ∧
    ((∀ net ∈ nets, (_make_request net).isRaise = false) →
      (_parallel_requests nets).length = nets.length) := by
  constructor
  · calc (_parallel_requests nets).length
        ≤ (nets.map _make_request).length := List.length_filterMap_le _ _
      _ = nets.length := List.length_map _ _
  · induction nets with
    | nil => intro _; rfl
    | cons net rest ih =>
      intro hno
      have h1 : (_make_request net).isRaise = false := hno net (by simp)
      have h2 := ih (fun m hm => hno m (by simp [hm]))
      cases hr : _make_request net with
      | raise m s a =>
        rw [hr] at h1
        simp [MakeRequestResult.isRaise] at h1
      | ret v s a =>
        have hcons : _parallel_requests (net :: rest) =
            v :: _parallel_requests rest := by
          simp [_parallel_requests, List.filterMap_cons, hr]
        rw [hcons, List.length_cons, h2, List.length_cons]

/-- Witness for the amended C6: two non-raising targets give exactly two
outcomes. -/
theorem parallel_requests_outcomes_witness :
    (_parallel_requests [fun _ => .resp ⟨200, [], none, .ok "a"⟩,
        fun _ => .resp ⟨404, [], none, .ok "b"⟩]).length = 2 := by
  refine (parallel_requests_outcomes _).2 ?_
  intro net hn
  rcases List.mem_cons.mp hn with he | he
  · subst he; decide
  · rcases List.mem_cons.mp he with he2 | he2
    · subst he2; decide
    · cases he2

/-- C8 counterexample: the claim says two `runOne("cdn")` runs with
identical inputs and stable network responses yield structurally
identical results apart from timestamps.  With a stable network (every
URL answers 200 with no headers) but the distinct identifier pools of two
unseeded `random.choices` draws, the two runs differ structurally: the
first interesting finding embeds the run's own random identifier in its
URL. -/
theorem runOne_cdn_nondeterminism_counterexample :
    cdnFirstFinding (enumerate_module "t" "unauth" false "cdn"
        (fun _ => .ok (CDNFuzzer_enumerate cIdsA (fun _ => "attachments")
          stableNet))) =
      some ⟨"https://cdn.discordapp.com/aaaa0123456789ab", 200, []⟩ ∧
    cdnFirstFinding (enumerate_module "t" "unauth" false "cdn"
        (fun _ => .ok (CDNFuzzer_enumerate cIdsB (fun _ => "attachments")
          stableNet))) =
      some ⟨"https://cdn.discordapp.com/bbbb0123456789ab", 200, []⟩ ∧
    enumerate_module "t" "unauth" false "cdn"
        (fun _ => .ok (CDNFuzzer_enumerate cIdsA (fun _ => "attachments")
          stableNet)) ≠
      enumerate_module "t" "unauth" false "cdn"
        (fun _ => .ok (CDNFuzzer_enumerate cIdsB (fun _ => "attachments")
          stableNet)) := by
  have hA : cdnFirstFinding (enumerate_module "t" "unauth" false "cdn"
      (fun _ => .ok (CDNFuzzer_enumerate cIdsA (fun _ => "attachments")
        stableNet))) =
      some ⟨"https://cdn.discordapp.com/aaaa0123456789ab", 200, []⟩ := by
    decide
  have hB : cdnFirstFinding (enumerate_module "t" "unauth" false "cdn"
      (fun _ => .ok (CDNFuzzer_enumerate cIdsB (fun _ => "attachments")
        stableNet))) =
      some ⟨"https://cdn.discordapp.com/bbbb0123456789ab", 200, []⟩ := by
    decide
  exact ⟨hA, hB, fun hEq => absurd
    ((hA.symm.trans (congrArg cdnFirstFinding hEq)).trans hB) (by decide)⟩

/-- C8 amended: determinism holds only relative to the random draws: for
every registered module, two `enumerate_module` runs at different
timestamps under the same unit behaviour — same inputs, same stable
network responses AND the same random identifier pool and endpoint
choices (e.g. an externally seeded random source) — produce reports with
identical `results` and execution-time content, differing only in the
timestamp metadata. -/
theorem runOne_two_run_determinism {α : Type} (m : String)
    (hm : m ∈ registry) (b : UnitBehavior α) (ts1 ts2 md : String)
    (au : Bool) :
    ∃ rep1 rep2 : ModuleReport α,
      enumerate_module ts1 md au m (fun _ => b) = .ok rep1 ∧
      enumerate_module ts2 md au m (fun _ => b) = .ok rep2 ∧
      rep1.results = rep2.results ∧
      rep1.execution_time_set = rep2.execution_time_set ∧
      rep1.timestamp = ts1 ∧ rep2.timestamp = ts2 := by
  refine ⟨{ timestamp := ts1, mode := md, authenticated := au, module := m,
            execution_time_set := (run_enumerator b).2,
            results := (run_enumerator b).1 },
          { timestamp := ts2, mode := md, authenticated := au, module := m,
            execution_time_set := (run_enumerator b).2,
            results := (run_enumerator b).1 },
          ?_, ?_, rfl, rfl, rfl, rfl⟩
  · simp [enumerate_module, hm]
  · simp [enumerate_module, hm]

/-- Witness for the amended C8: two runs of the asn unit at timestamps
`t1` and `t2` under one fixed behaviour have equal results content. -/
theorem runOne_two_run_determinism_witness :
    ∃ rep1 rep2 : ModuleReport String,
      enumerate_module "t1" "unauth" false "asn"
          (fun _ => .ok "findings") = .ok rep1 ∧
      enumerate_module "t2" "unauth" false "asn"
          (fun _ => .ok "findings") = .ok rep2 ∧
      rep1.results = rep2.results ∧
      rep1.execution_time_set = rep2.execution_time_set ∧
      rep1.timestamp = "t1" ∧ rep2.timestamp = "t2" :=
  runOne_two_run_determinism "asn" (by decide) (.ok "findings") "t1" "t2"
    "unauth" false

/-- C9 counterexample: the claim says an interrupted run's merged results
are preserved and returned.  A `KeyboardInterrupt` after two units (asn,
dns) completed reaches the `except KeyboardInterrupt` handler, which
prints and exits with code 1 without calling `save_results`: no report is
returned or saved, and the two complete in-memory entries are discarded
with the process. -/
theorem main_interrupt_counterexample :
    mainRun (α := String) "t" "unauth" false (fun _ => .ok "findings")
        (fun _ => 1) registry (some 2) =
      (1, none,
       [("asn", .result "findings"), ("dns", .result "findings")]) := by
  rfl

/-- C9 amended: on a top-level interrupt after `k` completed units the
process exits with code 1 and neither returns nor saves any report — the
merged entries are discarded — although the in-memory `results` mapping
at that moment holds exactly one complete entry per completed unit and no
half-built entry (an entry appears only when its `run_enumerator` task
has finished); an uninterrupted run saves the full report and exits 0. -/
theorem main_interrupt_behaviour {α : Type} (ts md : String) (au : Bool)
    (behav : String → UnitBehavior α) (times : String → Rat)
    (order : List String) (k : Nat) (h : order.Perm registry) :
    (mainRun ts md au behav times order (some k)).1 = 1 ∧
    (mainRun ts md au behav times order (some k)).2.1 = none ∧
    ((mainRun ts md au behav times order (some k)).2.2.map Prod.fst =
      order.take k) ∧
    (∀ n, n ∈ order.take k →
      (mainRun ts md au behav times order (some k)).2.2.lookup n =
        some (run_enumerator (behav n)).1) ∧
    (mainRun ts md au behav times order none).1 = 0 ∧
    (mainRun ts md au behav times order none).2.1 =
      some (enumerate_all ts md au behav times order) := by
  have hnd : (order.take k).Nodup :=
    List.Nodup.sublist (List.take_sublist k order)
      (h.nodup_iff.mpr registry_nodup)
  refine ⟨rfl, rfl, enumerate_all_fold_keys behav times (order.take k),
    ?_, rfl, rfl⟩
  intro n hn
  exact (enumerate_all_fold_lookup behav times (order.take k) hnd n hn).1

/-- Witness for the amended C9: interrupt after three of five units. -/
theorem main_interrupt_behaviour_witness :
    (mainRun (α := String) "t" "unauth" false (fun _ => .ok "findings")
        (fun _ => 1) registry (some 3)).2.2.lookup "services" =
      some (.result "findings") ∧
    (mainRun (α := String) "t" "unauth" false (fun _ => .ok "findings")
        (fun _ => 1) registry (some 3)).2.1 = none := by
  constructor
  · exact ((main_interrupt_behaviour "t" "unauth" false
      (fun _ => .ok "findings") (fun _ => 1) registry 3
      (List.Perm.refl _)).2.2.2.1 "services" (by decide)).trans (by decide)
  · exact (main_interrupt_behaviour "t" "unauth" false
      (fun _ => .ok "findings") (fun _ => 1) registry 3
      (List.Perm.refl _)).2.1

end DiscordEnum
